import Mathlib

/-!
# DashboardMain: the view-state controller of the dashboard

A shallow embedding of `components/dashboard/DashboardMain.js`.  The React
component keeps six state slices (`useState`) next to the `dimensionItem`
prop; every handler of the component is embedded as a function on the record
of these slices.  Arrays are lists, `null` and `undefined` are `none`, and a
handler that can throw returns the state it leaves behind together with a
flag saying whether it threw.
-/

namespace DashboardMain

/-! ## The logical data model and the SDK values the component uses -/

/-- Modelled from the spec: the attribute objects of the catalogue `ldm/full`
(imported as `Ldm`, absent from the sources).  The component only compares
them by identity; `other` stands for every further attribute of the
catalogue. -/
inductive Dimension where
  | ProductCategory
  | ProductDefault
  | CustomerRegion
  | CustomerState
  | other (identifier : String)
  deriving DecidableEq, Repr

/-- Modelled from the spec: the three date attributes of `Ldm.DateDatasets.Date`
that the component uses as chart grain: `Month.Short`, `Date.MmDdYyyy` and
`WeekSunSatYear.WkQtrYear_1`. -/
inductive Grain where
  | MonthShort
  | DateMmDdYyyy
  | WeekSunSatYearWkQtrYear_1
  deriving DecidableEq, Repr

/-- Modelled from the spec: the four measures of the catalogue shown as KPI
cards (`Ldm.Revenue`, `Ldm.NrOfValidOrders`, `Ldm.RevenueReturns`,
`Ldm.NrOrdersReturns`). -/
inductive Measure where
  | Revenue
  | NrOfValidOrders
  | RevenueReturns
  | NrOrdersReturns
  deriving DecidableEq, Repr

/-- Modelled from the spec: the value built by the SDK function
`newPositiveAttributeFilter(attribute, values)`: a positive-match filter on
an attribute with the list of accepted values. -/
structure PositiveAttributeFilter where
  displayForm : Option Dimension
  values : List String
  deriving DecidableEq, Repr

/-- The SDK constructor, as a record constructor. -/
def newPositiveAttributeFilter (attributeOrRef : Option Dimension) (values : List String) :
    PositiveAttributeFilter :=
  { displayForm := attributeOrRef, values := values }

/-- A date-filter option as the handler reads it: the fields `granularity`
and `from` may be absent (`none`), as they are for the all-time option. -/
structure DateFilterOption where
  localIdentifier : String
  granularity : Option String
  «from» : Option Int
  deriving DecidableEq, Repr

/-- Modelled from the spec: `defaultDateFilterOptions.allTime` of the SDK, an
option with neither a granularity nor an offset. -/
def allTime : DateFilterOption :=
  { localIdentifier := "ALL_TIME", granularity := none, «from» := none }

/-- One entry of the breadcrumb trail, also the shape of the prop
`dimensionItem`. -/
structure BreadCrumbItem where
  label : String
  dimension : Option Dimension
  icon : Option String
  deriving DecidableEq, Repr

/-- The object held by the `attributeFilter` state (the drill selection). -/
structure AttributeFilterState where
  attributeFilter : Option PositiveAttributeFilter
  dimension : Option Dimension
  deriving DecidableEq, Repr

/-- The prop `dimensionItem` and the six `useState` slices of the component. -/
structure State where
  dimensionItem : BreadCrumbItem
  attributeFilter : AttributeFilterState
  breadCrumbItems : List BreadCrumbItem
  chartDateGrain : Grain
  selectedMeasure : Measure
  dateFilterOption : DateFilterOption
  excludeCurrentPeriod : Bool
  deriving DecidableEq, Repr

/-! ## Constants of the component -/

def GRAIN_DAY : String := "GDC.time.date"
def GRAIN_MONTH : String := "GDC.time.month"
def GRAIN_QUARTER : String := "GDC.time.quarter"

/-! ## JavaScript primitives -/

/-- Strict equality `x.granularity === c` of a possibly absent string with a
string constant. -/
def strictEq (x : Option String) (c : String) : Bool :=
  match x with
  | some s => decide (s = c)
  | none => false

/-- The comparison `x.from > c`; an absent operand compares false. -/
def jsGt (x : Option Int) (c : Int) : Bool :=
  match x with
  | some n => decide (n > c)
  | none => false

/-- The array left behind by `Array.prototype.splice(start, deleteCount)`:
a negative `start` counts from the end, both arguments are clamped to the
array. -/
def splice {α : Type} (xs : List α) (start deleteCount : Int) : List α :=
  let len : Int := xs.length
  let actualStart : Int := if start < 0 then max (len + start) 0 else min start len
  let actualDeleteCount : Int := min (max deleteCount 0) (len - actualStart)
  xs.take actualStart.toNat ++ xs.drop (actualStart + actualDeleteCount).toNat

/-- The element access `xs[i]`: `undefined` (`none`) outside the array. -/
def jsIndex {α : Type} (xs : List α) (i : Int) : Option α :=
  if i < 0 then none else xs.get? i.toNat

/-! ## Mount and the reset effect -/

/-- The initial values of the `useState` calls for a given prop. -/
def mount (dimensionItem : BreadCrumbItem) : State :=
  { dimensionItem := dimensionItem
    attributeFilter := { attributeFilter := none, dimension := dimensionItem.dimension }
    breadCrumbItems := [dimensionItem]
    chartDateGrain := Grain.MonthShort
    selectedMeasure := Measure.Revenue
    dateFilterOption := allTime
    excludeCurrentPeriod := false }

/-- The effect on `[dimensionItem]`: the parent supplies a new prop and the
effect resets the trail and the drill selection. -/
def resetOnDimensionItem (s : State) (dimensionItem : BreadCrumbItem) : State :=
  { s with
    dimensionItem := dimensionItem
    breadCrumbItems := [dimensionItem]
    attributeFilter := { attributeFilter := none, dimension := dimensionItem.dimension } }

/-! ## The handlers -/

/-- The grain computed by the body of `onApplyDateFilter`. -/
def grainOf (dateFilterOption : DateFilterOption) : Grain :=
  if (strictEq dateFilterOption.granularity GRAIN_DAY && jsGt dateFilterOption.«from» (-32)) ||
     (strictEq dateFilterOption.granularity GRAIN_MONTH && jsGt dateFilterOption.«from» (-2)) then
    Grain.DateMmDdYyyy
  else if (strictEq dateFilterOption.granularity GRAIN_DAY && jsGt dateFilterOption.«from» (-180)) ||
     (strictEq dateFilterOption.granularity GRAIN_MONTH && jsGt dateFilterOption.«from» (-7)) ||
     (strictEq dateFilterOption.granularity GRAIN_QUARTER && jsGt dateFilterOption.«from» (-3)) then
    Grain.WeekSunSatYearWkQtrYear_1
  else
    Grain.MonthShort

def onApplyDateFilter (s : State) (dateFilterOption : DateFilterOption)
    (excludeCurrentPeriod : Bool) : State :=
  { s with
    chartDateGrain := grainOf dateFilterOption
    dateFilterOption := dateFilterOption
    excludeCurrentPeriod := excludeCurrentPeriod }

def changeMeasure (s : State) (measure : Measure) : State :=
  { s with selectedMeasure := measure }

/-- The local constant `newDimension` of `handleDrillDown`, as a function of
the prop it reads. -/
def newDimension (dimensionItem : BreadCrumbItem) : Dimension :=
  if dimensionItem.dimension = some Dimension.ProductCategory then Dimension.ProductDefault
  else Dimension.CustomerState

def handleDrillDown (s : State) (drillDimensionName : String) : State :=
  let newFilter := newPositiveAttributeFilter s.attributeFilter.dimension [drillDimensionName]
  { s with
    attributeFilter :=
      { attributeFilter := some newFilter, dimension := some (newDimension s.dimensionItem) }
    breadCrumbItems :=
      [s.dimensionItem, { label := drillDimensionName, dimension := none, icon := none }] }

/-- The outcome of a handler that may throw: the state it leaves behind and
whether it ended in a `TypeError`. -/
structure Run where
  state : State
  threw : Bool
  deriving DecidableEq, Repr

/-- The handler `removeBreadCrumbChildren`.  `splice` changes the array of the
trail in place, so the shortened trail is part of the state even when the
read of `breadCrumbItems[parentIndex].dimension` that follows throws. -/
def removeBreadCrumbChildren (s : State) (parentIndex : Int) : Run :=
  if parentIndex = (s.breadCrumbItems.length : Int) - 1 then
    { state := s, threw := false }
  else
    let items := splice s.breadCrumbItems (parentIndex + 1)
      ((s.breadCrumbItems.length : Int) - parentIndex)
    match jsIndex items parentIndex with
    | none => { state := { s with breadCrumbItems := items }, threw := true }
    | some item =>
      { state := { s with
          attributeFilter := { attributeFilter := none, dimension := item.dimension }
          breadCrumbItems := items }
        threw := false }

/-- The callback `onClick` passed to `DashboardBreadcrumbs`. -/
def onClick (s : State) (index : Int) : Run :=
  removeBreadCrumbChildren s index

/-- The callback `onDelete` passed to `DashboardBreadcrumbs`. -/
def onDelete (s : State) (index : Int) : Run :=
  removeBreadCrumbChildren s (index - 1)

/-- The predicate `isDrillable`; `attribute.localIdentifier` identifies the
attribute object, and reading it from a `null` dimension throws (`none`). -/
def isDrillable (s : State) : Option Bool :=
  match s.attributeFilter.dimension with
  | none => none
  | some d => some (decide (d = Dimension.ProductCategory) || decide (d = Dimension.CustomerRegion))

/-! ## The reference rule for the grain, after the specification -/

/-- The grain rule as the specification words it: the near-term bucket is
tried first, then the mid-term bucket, and everything else is monthly. -/
def specGrain (u : String) (f : Int) : Grain :=
  if (u = "GDC.time.date" ∧ f > -32) ∨ (u = "GDC.time.month" ∧ f > -2) then
    Grain.DateMmDdYyyy
  else if (u = "GDC.time.date" ∧ f > -180) ∨ (u = "GDC.time.month" ∧ f > -7) ∨
      (u = "GDC.time.quarter" ∧ f > -3) then
    Grain.WeekSunSatYearWkQtrYear_1
  else
    Grain.MonthShort

/-! ## Events and reachable states -/

/-- The events the component reacts to. -/
inductive Event where
  | reset (dimensionItem : BreadCrumbItem)
  | applyDateFilter (dateFilterOption : DateFilterOption) (excludeCurrentPeriod : Bool)
  | changeMeasure (measure : Measure)
  | drillDown (drillDimensionName : String)
  | click (index : Nat)
  | delete (index : Nat)
  deriving DecidableEq, Repr

/-- The state after an event; a handler that throws leaves the state it had
reached. -/
def step (s : State) : Event → State
  | Event.reset d => resetOnDimensionItem s d
  | Event.applyDateFilter o e => onApplyDateFilter s o e
  | Event.changeMeasure m => changeMeasure s m
  | Event.drillDown v => handleDrillDown s v
  | Event.click i => (onClick s (i : Int)).state
  | Event.delete i => (onDelete s (i : Int)).state

/-- A breadcrumb event carries the index of an entry of the trail on screen. -/
def enabled (s : State) : Event → Bool
  | Event.click i => decide (i < s.breadCrumbItems.length)
  | Event.delete i => decide (i < s.breadCrumbItems.length)
  | _ => true

/-- The states reachable from mount by enabled events. -/
inductive Reachable : State → Prop where
  | mount (dimensionItem : BreadCrumbItem) : Reachable (mount dimensionItem)
  | step {s : State} (e : Event) : Reachable s → enabled s e = true → Reachable (step s e)

/-! ## Sample values -/

def categoryItem : BreadCrumbItem :=
  { label := "Product Category", dimension := some Dimension.ProductCategory, icon := none }

def regionItem : BreadCrumbItem :=
  { label := "Customer Region", dimension := some Dimension.CustomerRegion, icon := none }

def crumb (label : String) : BreadCrumbItem :=
  { label := label, dimension := none, icon := none }

/-! ## Invariants of the reachable states -/

/-- The drill selection is either the root selection (no filter, the
dimension of the prop) or a drilled one (a filter, the mapped dimension). -/
def SelectionInv (s : State) : Prop :=
  (s.attributeFilter.attributeFilter = none ∧
    s.attributeFilter.dimension = s.dimensionItem.dimension) ∨
  (s.attributeFilter.attributeFilter ≠ none ∧
    s.attributeFilter.dimension = some (newDimension s.dimensionItem))

/-- The trail is empty, or the root alone with no filter, or the root and one
drilled crumb with a filter. -/
def TrailInv (s : State) : Prop :=
  s.breadCrumbItems = [] ∨
  (s.breadCrumbItems = [s.dimensionItem] ∧ s.attributeFilter.attributeFilter = none) ∨
  (∃ v : String, s.breadCrumbItems = [s.dimensionItem, crumb v] ∧
    s.attributeFilter.attributeFilter ≠ none)

/-- A delete event is guarded when it does not name the root entry. -/
def guarded : Event → Bool
  | Event.delete i => decide (0 < i)
  | _ => true

/-- The states reachable from mount by enabled events whose deletes are
guarded. -/
inductive ReachableGuarded : State → Prop where
  | mount (dimensionItem : BreadCrumbItem) : ReachableGuarded (mount dimensionItem)
  | step {s : State} (e : Event) :
      ReachableGuarded s → enabled s e = true → guarded e = true → ReachableGuarded (step s e)

/-! ## Facts about the JavaScript primitives -/

theorem splice_after_index {α : Type} (xs : List α) (i : Nat) (h : i < xs.length) :
    splice xs ((i : Int) + 1) ((xs.length : Int) - i) = xs.take (i + 1) := by
  have h1 : ¬ ((i : Int) + 1 < 0) := by omega
  have h2 : min ((i : Int) + 1) (xs.length : Int) = (i : Int) + 1 := by
    apply min_eq_left; omega
  have h3 : max ((xs.length : Int) - i) 0 = (xs.length : Int) - i := by
    apply max_eq_left; omega
  have h4 : min ((xs.length : Int) - i) ((xs.length : Int) - ((i : Int) + 1)) =
      (xs.length : Int) - ((i : Int) + 1) := by
    apply min_eq_right; omega
  have h5 : ((i : Int) + 1).toNat = i + 1 := by omega
  have h6 : ((i : Int) + 1 + ((xs.length : Int) - ((i : Int) + 1))).toNat = xs.length := by omega
  simp only [splice, if_neg h1, h2, h3, h4, h5, h6, List.drop_length, List.append_nil]

theorem jsIndex_take_succ {α : Type} (xs : List α) (i : Nat) (h : i < xs.length) :
    jsIndex (xs.take (i + 1)) (i : Int) = some (xs.get ⟨i, h⟩) := by
  have h1 : ¬ ((i : Int) < 0) := by omega
  simp only [jsIndex, if_neg h1, Int.toNat_ofNat]
  rw [List.get?_eq_getElem?, List.getElem?_take_of_lt (Nat.lt_succ_self i),
    List.getElem?_eq_getElem h]
  rfl

/-! ## The three ways `removeBreadCrumbChildren` can go -/

theorem removeBreadCrumbChildren_last (s : State) (parentIndex : Int)
    (h : parentIndex = (s.breadCrumbItems.length : Int) - 1) :
    removeBreadCrumbChildren s parentIndex = { state := s, threw := false } := by
  simp only [removeBreadCrumbChildren, if_pos h]

theorem removeBreadCrumbChildren_of_lt (s : State) (i : Nat) (h : i < s.breadCrumbItems.length)
    (hl : i + 1 ≠ s.breadCrumbItems.length) :
    removeBreadCrumbChildren s (i : Int) =
      { state := { s with
          attributeFilter :=
            { attributeFilter := none, dimension := (s.breadCrumbItems.get ⟨i, h⟩).dimension }
          breadCrumbItems := s.breadCrumbItems.take (i + 1) }
        threw := false } := by
  have : ¬ ((i : Int) = (s.breadCrumbItems.length : Int) - 1) := by omega
  simp only [removeBreadCrumbChildren, if_neg this, splice_after_index _ i h,
    jsIndex_take_succ _ i h]

theorem removeBreadCrumbChildren_neg_one (s : State) (h : 0 < s.breadCrumbItems.length) :
    removeBreadCrumbChildren s (-1) =
      { state := { s with breadCrumbItems := [] }, threw := true } := by
  have h0 : ¬ ((-1 : Int) = (s.breadCrumbItems.length : Int) - 1) := by omega
  have h1 : min (0 : Int) (s.breadCrumbItems.length : Int) = 0 := by
    apply min_eq_left; omega
  have h2 : max ((s.breadCrumbItems.length : Int) - -1) 0 = (s.breadCrumbItems.length : Int) + 1 := by
    rw [max_eq_left (by omega)]; omega
  have h3 : min ((s.breadCrumbItems.length : Int) + 1) ((s.breadCrumbItems.length : Int) - 0) =
      (s.breadCrumbItems.length : Int) := by
    rw [min_eq_right (by omega)]; omega
  have hs : splice s.breadCrumbItems (-1 + 1) ((s.breadCrumbItems.length : Int) - -1) = [] := by
    simp [splice, h1, h2, h3]
  simp only [removeBreadCrumbChildren, if_neg h0, hs]
  rfl

theorem removeBreadCrumbChildren_of_lookup (s : State) (i : Nat) (item : BreadCrumbItem)
    (hi : s.breadCrumbItems[i]? = some item) (hl : i + 1 ≠ s.breadCrumbItems.length) :
    removeBreadCrumbChildren s (i : Int) =
      { state := { s with
          attributeFilter := { attributeFilter := none, dimension := item.dimension }
          breadCrumbItems := s.breadCrumbItems.take (i + 1) }
        threw := false } := by
  obtain ⟨h, hget⟩ := List.getElem?_eq_some_iff.mp hi
  rw [removeBreadCrumbChildren_of_lt s i h hl]
  have : s.breadCrumbItems.get ⟨i, h⟩ = item := hget
  rw [this]

theorem onDelete_succ (s : State) (k : Nat) :
    onDelete s ((k + 1 : Nat) : Int) = removeBreadCrumbChildren s (k : Int) := by
  have : (((k + 1 : Nat) : Int) - 1) = (k : Int) := by omega
  simp only [onDelete, this]

/-! ## The invariants hold in every reachable state -/

theorem inv_mount (d : BreadCrumbItem) : SelectionInv (mount d) ∧ TrailInv (mount d) :=
  ⟨Or.inl ⟨rfl, rfl⟩, Or.inr (Or.inl ⟨rfl, rfl⟩)⟩

theorem inv_removeBreadCrumbChildren (s : State) (k : Nat) (hk : k < s.breadCrumbItems.length)
    (hs : SelectionInv s ∧ TrailInv s) :
    SelectionInv (removeBreadCrumbChildren s (k : Int)).state ∧
      TrailInv (removeBreadCrumbChildren s (k : Int)).state := by
  by_cases hl : k + 1 = s.breadCrumbItems.length
  · rw [removeBreadCrumbChildren_last s (k : Int) (by omega)]
    exact hs
  · rcases hs.2 with h0 | ⟨h1, -⟩ | ⟨v, h2, -⟩
    · rw [h0] at hk; exact absurd hk (by simp)
    · rw [h1] at hk hl; simp at hk; subst hk; simp at hl
    · have hk0 : k = 0 := by
        rw [h2] at hk hl; simp at hk hl; omega
      subst hk0
      have hi : s.breadCrumbItems[0]? = some s.dimensionItem := by rw [h2]; rfl
      rw [removeBreadCrumbChildren_of_lookup s 0 _ hi hl]
      refine ⟨Or.inl ⟨rfl, rfl⟩, Or.inr (Or.inl ⟨?_, rfl⟩)⟩
      show s.breadCrumbItems.take (0 + 1) = [s.dimensionItem]
      rw [h2]; rfl

theorem inv_step (s : State) (e : Event) (hs : SelectionInv s ∧ TrailInv s)
    (he : enabled s e = true) : SelectionInv (step s e) ∧ TrailInv (step s e) := by
  cases e with
  | reset d => exact ⟨Or.inl ⟨rfl, rfl⟩, Or.inr (Or.inl ⟨rfl, rfl⟩)⟩
  | applyDateFilter o x => exact hs
  | changeMeasure m => exact hs
  | drillDown v =>
    refine ⟨Or.inr ⟨?_, rfl⟩, Or.inr (Or.inr ⟨v, rfl, ?_⟩)⟩ <;>
      simp [step, handleDrillDown]
  | click i =>
    have hi : i < s.breadCrumbItems.length := by simpa [enabled] using he
    exact inv_removeBreadCrumbChildren s i hi hs
  | delete i =>
    have hi : i < s.breadCrumbItems.length := by simpa [enabled] using he
    cases i with
    | zero =>
      show SelectionInv (removeBreadCrumbChildren s (((0 : Nat) : Int) - 1)).state ∧
        TrailInv (removeBreadCrumbChildren s (((0 : Nat) : Int) - 1)).state
      have h0 : (((0 : Nat) : Int) - 1) = -1 := by omega
      rw [h0, removeBreadCrumbChildren_neg_one s hi]
      exact ⟨hs.1, Or.inl rfl⟩
    | succ k =>
      show SelectionInv (onDelete s ((k + 1 : Nat) : Int)).state ∧
        TrailInv (onDelete s ((k + 1 : Nat) : Int)).state
      rw [onDelete_succ]
      exact inv_removeBreadCrumbChildren s k (by omega) hs

theorem inv_of_reachable (s : State) (h : Reachable s) : SelectionInv s ∧ TrailInv s := by
  induction h with
  | mount d => exact inv_mount d
  | step e _ he ih => exact inv_step _ e ih he

/-! ## With guarded deletes the trail keeps its root -/

theorem head_removeBreadCrumbChildren (s : State) (k : Nat) (hk : k < s.breadCrumbItems.length)
    (hs : s.breadCrumbItems.head? = some s.dimensionItem) :
    (removeBreadCrumbChildren s (k : Int)).threw = false ∧
    (removeBreadCrumbChildren s (k : Int)).state.breadCrumbItems.head? =
      some (removeBreadCrumbChildren s (k : Int)).state.dimensionItem := by
  by_cases hl : k + 1 = s.breadCrumbItems.length
  · rw [removeBreadCrumbChildren_last s (k : Int) (by omega)]
    exact ⟨rfl, hs⟩
  · rw [removeBreadCrumbChildren_of_lt s k hk hl]
    refine ⟨rfl, ?_⟩
    show (s.breadCrumbItems.take (k + 1)).head? = some s.dimensionItem
    rw [← hs]
    cases s.breadCrumbItems <;> rfl

theorem head_step_guarded (s : State) (e : Event)
    (hs : s.breadCrumbItems.head? = some s.dimensionItem)
    (he : enabled s e = true) (hg : guarded e = true) :
    (step s e).breadCrumbItems.head? = some (step s e).dimensionItem := by
  cases e with
  | reset d => rfl
  | applyDateFilter o x => exact hs
  | changeMeasure m => exact hs
  | drillDown v => rfl
  | click i =>
    have hi : i < s.breadCrumbItems.length := by simpa [enabled] using he
    exact (head_removeBreadCrumbChildren s i hi hs).2
  | delete i =>
    have hi : i < s.breadCrumbItems.length := by simpa [enabled] using he
    cases i with
    | zero => simp [guarded] at hg
    | succ k =>
      show (onDelete s ((k + 1 : Nat) : Int)).state.breadCrumbItems.head? =
        some (onDelete s ((k + 1 : Nat) : Int)).state.dimensionItem
      rw [onDelete_succ]
      exact (head_removeBreadCrumbChildren s k (by omega) hs).2

/-- With deletes restricted to the entries after the root, the trail of every
reachable state starts with the root item. -/
theorem head_of_reachableGuarded (s : State) (h : ReachableGuarded s) :
    s.breadCrumbItems.head? = some s.dimensionItem := by
  induction h with
  | mount d => rfl
  | step e _ he hg ih => exact head_step_guarded _ e ih he hg

/-- The click callback on an entry of the trail, and the delete callback on an
entry after the root, return normally. -/
theorem callbacks_return_when_guarded (s : State) (i : Nat) (hi : i < s.breadCrumbItems.length) :
    (onClick s (i : Int)).threw = false ∧ (0 < i → (onDelete s (i : Int)).threw = false) := by
  constructor
  · by_cases hl : i + 1 = s.breadCrumbItems.length
    · show (removeBreadCrumbChildren s (i : Int)).threw = false
      rw [removeBreadCrumbChildren_last s (i : Int) (by omega)]
    · show (removeBreadCrumbChildren s (i : Int)).threw = false
      rw [removeBreadCrumbChildren_of_lt s i hi hl]
  · intro h0
    obtain ⟨k, rfl⟩ : ∃ k, i = k + 1 := ⟨i - 1, by omega⟩
    rw [onDelete_succ]
    by_cases hl : k + 1 = s.breadCrumbItems.length
    · rw [removeBreadCrumbChildren_last s (k : Int) (by omega)]
    · rw [removeBreadCrumbChildren_of_lt s k (by omega) hl]

/-! ## The grain rule -/

/-- C1: for every option with unit `u` and integer offset `f`, the grain set
by `onApplyDateFilter` is the one of the reference rule taken in priority
order; an option in both buckets gets the daily grain, and a unit other than
day, month and quarter gets the monthly grain. -/
theorem onApplyDateFilter_grain_eq_specGrain (s : State) (name u : String) (f : Int) (e : Bool) :
    (onApplyDateFilter s
        { localIdentifier := name, granularity := some u, «from» := some f }
        e).chartDateGrain = specGrain u f ∧
    ((((u = GRAIN_DAY ∧ f > -32) ∨ (u = GRAIN_MONTH ∧ f > -2)) ∧
      ((u = GRAIN_DAY ∧ f > -180) ∨ (u = GRAIN_MONTH ∧ f > -7) ∨ (u = GRAIN_QUARTER ∧ f > -3))) →
      (onApplyDateFilter s
        { localIdentifier := name, granularity := some u, «from» := some f }
        e).chartDateGrain = Grain.DateMmDdYyyy) ∧
    ((u ≠ GRAIN_DAY ∧ u ≠ GRAIN_MONTH ∧ u ≠ GRAIN_QUARTER) →
      (onApplyDateFilter s
        { localIdentifier := name, granularity := some u, «from» := some f }
        e).chartDateGrain = Grain.MonthShort) := by
  refine ⟨?_, ?_, ?_⟩
  · simp only [onApplyDateFilter, grainOf, specGrain, strictEq, jsGt, GRAIN_DAY, GRAIN_MONTH,
      GRAIN_QUARTER, Bool.and_eq_true, Bool.or_eq_true, decide_eq_true_eq, or_assoc]
  · rintro ⟨h, -⟩
    simp only [onApplyDateFilter, grainOf, strictEq, jsGt, Bool.and_eq_true, Bool.or_eq_true,
      decide_eq_true_eq]
    rw [if_pos h]
  · rintro ⟨h1, h2, h3⟩
    simp [onApplyDateFilter, grainOf, strictEq, jsGt, h1, h2, h3]

/-- C2, counterexample: with day granularity and `from = -180` the test
`from > -180` fails, so the grain is the monthly one and not the weekly
one. -/
theorem onApplyDateFilter_day_minus_180_monthly :
    (onApplyDateFilter (mount categoryItem)
        { localIdentifier := "RELATIVE_DAYS", granularity := some GRAIN_DAY, «from» := some (-180) }
        false).chartDateGrain = Grain.MonthShort ∧
    (onApplyDateFilter (mount categoryItem)
        { localIdentifier := "RELATIVE_DAYS", granularity := some GRAIN_DAY, «from» := some (-180) }
        false).chartDateGrain ≠ Grain.WeekSunSatYearWkQtrYear_1 := by
  constructor <;>
    simp [onApplyDateFilter, grainOf, strictEq, jsGt, GRAIN_DAY, GRAIN_MONTH, GRAIN_QUARTER]

/-- C2, amended: with day granularity the grain is daily at `from = -31`,
weekly at `from = -32` and at `from = -179`, and monthly at `from = -180` and
at `from = -181`. -/
theorem onApplyDateFilter_day_boundaries (s : State) (name : String) (e : Bool) :
    (onApplyDateFilter s
        { localIdentifier := name, granularity := some GRAIN_DAY, «from» := some (-31) }
        e).chartDateGrain = Grain.DateMmDdYyyy ∧
    (onApplyDateFilter s
        { localIdentifier := name, granularity := some GRAIN_DAY, «from» := some (-32) }
        e).chartDateGrain = Grain.WeekSunSatYearWkQtrYear_1 ∧
    (onApplyDateFilter s
        { localIdentifier := name, granularity := some GRAIN_DAY, «from» := some (-179) }
        e).chartDateGrain = Grain.WeekSunSatYearWkQtrYear_1 ∧
    (onApplyDateFilter s
        { localIdentifier := name, granularity := some GRAIN_DAY, «from» := some (-180) }
        e).chartDateGrain = Grain.MonthShort ∧
    (onApplyDateFilter s
        { localIdentifier := name, granularity := some GRAIN_DAY, «from» := some (-181) }
        e).chartDateGrain = Grain.MonthShort := by
  refine ⟨?_, ?_, ?_, ?_, ?_⟩ <;>
    simp [onApplyDateFilter, grainOf, strictEq, jsGt, GRAIN_DAY, GRAIN_MONTH, GRAIN_QUARTER]

/-! ## Breadcrumb navigation -/

/-- C3: for an index `i` inside the trail, `removeBreadCrumbChildren i` leaves
the state as it is when `i` is the last index; otherwise it returns normally,
the trail becomes its first `i + 1` entries and the drill selection becomes
the empty filter with the dimension of entry `i`. -/
theorem removeBreadCrumbChildren_inside (s : State) (i : Nat) (h : i < s.breadCrumbItems.length) :
    (i + 1 = s.breadCrumbItems.length →
      removeBreadCrumbChildren s (i : Int) = { state := s, threw := false }) ∧
    (i + 1 ≠ s.breadCrumbItems.length →
      removeBreadCrumbChildren s (i : Int) =
        { state := { s with
            attributeFilter :=
              { attributeFilter := none, dimension := (s.breadCrumbItems.get ⟨i, h⟩).dimension }
            breadCrumbItems := s.breadCrumbItems.take (i + 1) }
          threw := false }) := by
  constructor
  · intro hl
    exact removeBreadCrumbChildren_last s (i : Int) (by omega)
  · intro hl
    exact removeBreadCrumbChildren_of_lt s i h hl

/-- C3, at a sample input: index 0 on a trail of three entries leaves the root
entry alone and no filter. -/
theorem removeBreadCrumbChildren_inside_witness :
    (0 : Nat) < (({ mount categoryItem with
        breadCrumbItems := [categoryItem, crumb "Shoes", crumb "Boots"] } : State)).breadCrumbItems.length ∧
    (removeBreadCrumbChildren ({ mount categoryItem with
        breadCrumbItems := [categoryItem, crumb "Shoes", crumb "Boots"] } : State) 0).state.breadCrumbItems
      = [categoryItem] ∧
    (removeBreadCrumbChildren ({ mount categoryItem with
        breadCrumbItems := [categoryItem, crumb "Shoes", crumb "Boots"] } : State) 0).state.attributeFilter
      = { attributeFilter := none, dimension := some Dimension.ProductCategory } := by
  have h := (removeBreadCrumbChildren_inside ({ mount categoryItem with
        breadCrumbItems := [categoryItem, crumb "Shoes", crumb "Boots"] } : State) 0
        (by decide)).2 (by decide)
  refine ⟨by decide, ?_, ?_⟩
  · rw [Nat.cast_zero] at h; rw [h]; rfl
  · rw [Nat.cast_zero] at h; rw [h]; rfl

/-! ## Reset -/

/-- C6: whatever the prior state, the reset for a new root `d` leaves the
trail `[d]` and the drill selection with no filter and the dimension of `d`. -/
theorem resetOnDimensionItem_trail_and_selection (s : State) (d : BreadCrumbItem) :
    (resetOnDimensionItem s d).breadCrumbItems = [d] ∧
    (resetOnDimensionItem s d).attributeFilter =
      { attributeFilter := none, dimension := d.dimension } :=
  ⟨rfl, rfl⟩

/-! ## Measure and date filter -/

/-- C9: `changeMeasure` keeps the drill selection, the trail, the date-filter
option, the exclude flag and the grain; `onApplyDateFilter` keeps the
measure, the drill selection and the trail; the two commute. -/
theorem changeMeasure_onApplyDateFilter_frame (s : State) (m : Measure) (o : DateFilterOption)
    (e : Bool) :
    ((changeMeasure s m).attributeFilter = s.attributeFilter ∧
      (changeMeasure s m).breadCrumbItems = s.breadCrumbItems ∧
      (changeMeasure s m).dateFilterOption = s.dateFilterOption ∧
      (changeMeasure s m).excludeCurrentPeriod = s.excludeCurrentPeriod ∧
      (changeMeasure s m).chartDateGrain = s.chartDateGrain) ∧
    ((onApplyDateFilter s o e).selectedMeasure = s.selectedMeasure ∧
      (onApplyDateFilter s o e).attributeFilter = s.attributeFilter ∧
      (onApplyDateFilter s o e).breadCrumbItems = s.breadCrumbItems) ∧
    onApplyDateFilter (changeMeasure s m) o e = changeMeasure (onApplyDateFilter s o e) m :=
  ⟨⟨rfl, rfl, rfl, rfl, rfl⟩, ⟨rfl, rfl, rfl⟩, rfl⟩

/-! ## Drill-down -/

/-- C4: in every reachable state, `handleDrillDown v` sets the filter to the
positive filter on the pre-drill working dimension with the values `[v]`, and
the new working dimension is `Product.Default` when the working dimension is
`ProductCategory` and `CustomerState` when it is `CustomerRegion`. -/
theorem handleDrillDown_selection (s : State) (v : String) (h : Reachable s) :
    (handleDrillDown s v).attributeFilter.attributeFilter =
      some { displayForm := s.attributeFilter.dimension, values := [v] } ∧
    (s.attributeFilter.dimension = some Dimension.ProductCategory →
      (handleDrillDown s v).attributeFilter.dimension = some Dimension.ProductDefault) ∧
    (s.attributeFilter.dimension = some Dimension.CustomerRegion →
      (handleDrillDown s v).attributeFilter.dimension = some Dimension.CustomerState) := by
  have hsel := (inv_of_reachable s h).1
  refine ⟨rfl, ?_, ?_⟩
  · intro hw
    show some (newDimension s.dimensionItem) = some Dimension.ProductDefault
    rcases hsel with ⟨-, hr⟩ | ⟨-, hr⟩
    · rw [hw] at hr
      simp [newDimension, ← hr]
    · rw [hw] at hr
      unfold newDimension at hr
      split at hr <;> simp at hr
  · intro hw
    show some (newDimension s.dimensionItem) = some Dimension.CustomerState
    rcases hsel with ⟨-, hr⟩ | ⟨-, hr⟩
    · rw [hw] at hr
      simp [newDimension, ← hr]
    · rw [hw] at hr
      unfold newDimension at hr
      split at hr <;> simp at hr

/-- C4, at a sample input: drilling into "Shoes" from the category root. -/
theorem handleDrillDown_selection_witness :
    Reachable (mount categoryItem) ∧
    (handleDrillDown (mount categoryItem) "Shoes").attributeFilter =
      { attributeFilter :=
          some { displayForm := some Dimension.ProductCategory, values := ["Shoes"] }
        dimension := some Dimension.ProductDefault } := by
  have h := handleDrillDown_selection (mount categoryItem) "Shoes" (Reachable.mount categoryItem)
  refine ⟨Reachable.mount categoryItem, ?_⟩
  have h1 := h.1
  have h2 := h.2.1 rfl
  cases hc : (handleDrillDown (mount categoryItem) "Shoes").attributeFilter with
  | mk f d =>
    rw [hc] at h1 h2
    simp only at h1 h2
    rw [h1, h2]
    rfl

/-- C5, counterexample: a second drill-down on the two-entry trail left by
a first one replaces the drilled crumb; the trail is not the old trail with
an entry added and its length stays two. -/
theorem handleDrillDown_second_not_append :
    (handleDrillDown (handleDrillDown (mount categoryItem) "Shoes") "Boots").breadCrumbItems =
      [categoryItem, crumb "Boots"] ∧
    (handleDrillDown (handleDrillDown (mount categoryItem) "Shoes") "Boots").breadCrumbItems ≠
      (handleDrillDown (mount categoryItem) "Shoes").breadCrumbItems ++ [crumb "Boots"] ∧
    (handleDrillDown (handleDrillDown (mount categoryItem) "Shoes") "Boots").breadCrumbItems.length ≠
      (handleDrillDown (mount categoryItem) "Shoes").breadCrumbItems.length + 1 := by
  refine ⟨rfl, ?_, ?_⟩
  · intro h
    have := congrArg List.length h
    simp [handleDrillDown] at this
  · simp [handleDrillDown]

/-- C5, amended: `handleDrillDown v` sets the trail to the root item followed
by the one entry for `v`; when the old trail is the root alone, the new trail
is the old one followed by that entry and is one longer. -/
theorem handleDrillDown_trail (s : State) (v : String) :
    (handleDrillDown s v).breadCrumbItems =
      [s.dimensionItem, { label := v, dimension := none, icon := none }] ∧
    (s.breadCrumbItems = [s.dimensionItem] →
      (handleDrillDown s v).breadCrumbItems =
          s.breadCrumbItems ++ [{ label := v, dimension := none, icon := none }] ∧
        (handleDrillDown s v).breadCrumbItems.length = s.breadCrumbItems.length + 1) := by
  refine ⟨rfl, ?_⟩
  intro h
  rw [h]
  exact ⟨rfl, rfl⟩

/-- C5, at a sample input: the first drill-down from the mounted category root
adds the entry for "Shoes" to the one-entry trail. -/
theorem handleDrillDown_trail_witness :
    (mount categoryItem).breadCrumbItems = [(mount categoryItem).dimensionItem] ∧
    (handleDrillDown (mount categoryItem) "Shoes").breadCrumbItems =
      [categoryItem] ++ [crumb "Shoes"] ∧
    (handleDrillDown (mount categoryItem) "Shoes").breadCrumbItems.length = 1 + 1 :=
  ⟨rfl, (handleDrillDown_trail (mount categoryItem) "Shoes").2 rfl⟩

/-- Where the widgets offer a drill (`isDrillable` holds) and the trail is not
empty, the reachable state is at the root level and the drill-down adds the
new entry to the trail. -/
theorem handleDrillDown_append_when_drillable (s : State) (v : String) (h : Reachable s)
    (hd : isDrillable s = some true) (hne : s.breadCrumbItems ≠ []) :
    (handleDrillDown s v).breadCrumbItems =
      s.breadCrumbItems ++ [{ label := v, dimension := none, icon := none }] := by
  obtain ⟨hsel, htrail⟩ := inv_of_reachable s h
  have hf : s.attributeFilter.attributeFilter = none := by
    rcases hsel with ⟨hn, -⟩ | ⟨-, hr⟩
    · exact hn
    · exfalso
      unfold newDimension at hr
      split at hr <;> simp [isDrillable, hr] at hd
  rcases htrail with h0 | ⟨h1, -⟩ | ⟨_, -, hn⟩
  · exact absurd h0 hne
  · rw [h1]; rfl
  · exact absurd hf hn

/-! ## The root of the trail -/

/-- C7, at the failing input: deleting entry 0 of the mounted trail is an
enabled event, and the state it leaves has an empty trail, so the trail no
longer starts with the root item. -/
theorem trail_empty_after_delete_root :
    Reachable (step (mount categoryItem) (Event.delete 0)) ∧
    (step (mount categoryItem) (Event.delete 0)).breadCrumbItems = [] ∧
    (step (mount categoryItem) (Event.delete 0)).breadCrumbItems.head? ≠
      some (step (mount categoryItem) (Event.delete 0)).dimensionItem := by
  have hs : step (mount categoryItem) (Event.delete 0) =
      { mount categoryItem with breadCrumbItems := [] } := by
    show (removeBreadCrumbChildren (mount categoryItem) (((0 : Nat) : Int) - 1)).state = _
    have h0 : (((0 : Nat) : Int) - 1) = -1 := by omega
    rw [h0, removeBreadCrumbChildren_neg_one (mount categoryItem) (by decide)]
  refine ⟨Reachable.step (Event.delete 0) (Reachable.mount categoryItem) (by decide), ?_, ?_⟩
  · rw [hs]
  · rw [hs]; simp

/-- C10, at the failing input: `onDelete 0` on the mounted trail calls
`removeBreadCrumbChildren (-1)`, which empties the trail, finds no entry at
position `-1` and throws. -/
theorem onDelete_root_throws :
    jsIndex (splice [categoryItem] ((0 : Int) - 1 + 1) (1 - ((0 : Int) - 1))) ((0 : Int) - 1) = none ∧
    onDelete (mount categoryItem) 0 =
      { state := { mount categoryItem with breadCrumbItems := [] }, threw := true } := by
  constructor
  · simp [jsIndex]
  · show removeBreadCrumbChildren (mount categoryItem) ((0 : Int) - 1) = _
    have h0 : ((0 : Int) - 1) = -1 := by omega
    rw [h0, removeBreadCrumbChildren_neg_one (mount categoryItem) (by decide)]

/-! ## Trail and drill selection -/

/-- C8, counterexample: after one drill-down from the category root the last
entry of the trail has no dimension, while the working dimension is
`Product.Default`. -/
theorem last_dimension_differs_after_drill :
    Reachable (step (mount categoryItem) (Event.drillDown "Shoes")) ∧
    (step (mount categoryItem) (Event.drillDown "Shoes")).breadCrumbItems.getLast? =
      some (crumb "Shoes") ∧
    (crumb "Shoes").dimension ≠
      (step (mount categoryItem) (Event.drillDown "Shoes")).attributeFilter.dimension := by
  refine ⟨Reachable.step (Event.drillDown "Shoes") (Reachable.mount categoryItem) rfl, rfl, ?_⟩
  simp [step, handleDrillDown, crumb]

/-- C8, amended: in a reachable state whose trail has a last entry, that
entry has the working dimension when no drill filter is active; when a drill
filter is active the entry has no dimension and the working dimension is the
mapped one. -/
theorem last_dimension_of_reachable (s : State) (e : BreadCrumbItem) (h : Reachable s)
    (he : s.breadCrumbItems.getLast? = some e) :
    (s.attributeFilter.attributeFilter = none → e.dimension = s.attributeFilter.dimension) ∧
    (s.attributeFilter.attributeFilter ≠ none →
      e.dimension = none ∧ s.attributeFilter.dimension = some (newDimension s.dimensionItem)) := by
  obtain ⟨hsel, htrail⟩ := inv_of_reachable s h
  rcases htrail with h0 | ⟨h1, hf⟩ | ⟨v, h2, hf⟩
  · rw [h0] at he; simp at he
  · rw [h1] at he
    have he1 : s.dimensionItem = e := by simpa using he
    subst he1
    refine ⟨fun _ => ?_, fun hn => absurd hf hn⟩
    rcases hsel with ⟨-, hr⟩ | ⟨hn, -⟩
    · exact hr.symm
    · exact absurd hf hn
  · rw [h2] at he
    have he1 : crumb v = e := by simpa using he
    subst he1
    refine ⟨fun hn => absurd hn hf, fun _ => ⟨rfl, ?_⟩⟩
    rcases hsel with ⟨hn, -⟩ | ⟨-, hr⟩
    · exact absurd hn hf
    · exact hr

/-- C8, at sample inputs: the mounted state and the state after a drill-down. -/
theorem last_dimension_of_reachable_witness :
    (Reachable (mount categoryItem) ∧
      (mount categoryItem).breadCrumbItems.getLast? = some categoryItem ∧
      categoryItem.dimension = (mount categoryItem).attributeFilter.dimension) ∧
    (Reachable (step (mount regionItem) (Event.drillDown "West")) ∧
      (step (mount regionItem) (Event.drillDown "West")).breadCrumbItems.getLast? =
        some (crumb "West") ∧
      (crumb "West").dimension = none ∧
      (step (mount regionItem) (Event.drillDown "West")).attributeFilter.dimension =
        some Dimension.CustomerState) := by
  have r2 : Reachable (step (mount regionItem) (Event.drillDown "West")) :=
    Reachable.step (Event.drillDown "West") (Reachable.mount regionItem) rfl
  refine ⟨⟨Reachable.mount categoryItem, rfl, ?_⟩, ⟨r2, rfl, ?_⟩⟩
  · exact (last_dimension_of_reachable (mount categoryItem) categoryItem
      (Reachable.mount categoryItem) rfl).1 rfl
  · have h := (last_dimension_of_reachable (step (mount regionItem) (Event.drillDown "West"))
      (crumb "West") r2 rfl).2 (by simp [step, handleDrillDown])
    exact ⟨h.1, h.2.trans rfl⟩

end DashboardMain
